import Mathlib

/-!
Shallow embedding of the songplays ETL pipeline (src/etl.py) and proofs of
the spec claims about it.

The embedding follows the source structure:
* calendar arithmetic models `pd.to_datetime(ts, unit="ms")` (a naive UTC
  timestamp) and Python's `datetime.fromtimestamp` (local-time conversion,
  modelled with an explicit UTC-offset parameter);
* `process_log_file`, `process_song_file`, `process_data` mirror the three
  functions of etl.py, emitting lists of Persistence-Gateway operations;
* the file discoverer of `process_data` (os.walk + glob of "*.json") is
  modelled over a finite filesystem tree.
-/

/-! ## Calendar arithmetic (UTC decomposition of epoch milliseconds)

`civilFromDays` / `daysFromCivil` are the standard proleptic-Gregorian
conversions between a day count since 1970-01-01 and a civil (y, m, d)
triple; `isoWeekOfDay` / `isoWeekdayOfDay` give the ISO-8601 week number
and weekday used by pandas `Series.dt.isocalendar()`.  All divisions are
Euclidean (`Int.ediv`), which is floor division for the positive divisors
used here. -/

/-- Civil (year, month, day) of a day count since the epoch 1970-01-01. -/
def civilFromDays (z : Int) : Int × Int × Int :=
  let zs := z + 719468
  let era := Int.ediv zs 146097
  let doe := zs - era * 146097
  let yoe := Int.ediv (doe - Int.ediv doe 1460 + Int.ediv doe 36524 - Int.ediv doe 146096) 365
  let y := yoe + era * 400
  let doy := doe - (365 * yoe + Int.ediv yoe 4 - Int.ediv yoe 100)
  let mp := Int.ediv (5 * doy + 2) 153
  let d := doy - Int.ediv (153 * mp + 2) 5 + 1
  let m := if mp < 10 then mp + 3 else mp - 9
  (if m ≤ 2 then y + 1 else y, m, d)

/-- Day count since 1970-01-01 of a civil (year, month, day). -/
def daysFromCivil (y m d : Int) : Int :=
  let ys := if m ≤ 2 then y - 1 else y
  let era := Int.ediv ys 400
  let yoe := ys - era * 400
  let mp := Int.emod (m + 9) 12
  let doy := Int.ediv (153 * mp + 2) 5 + d - 1
  let doe := yoe * 365 + Int.ediv yoe 4 - Int.ediv yoe 100 + doy
  era * 146097 + doe - 719468

/-- ISO-8601 weekday (1 = Monday .. 7 = Sunday) of a day count since the
epoch; 1970-01-01 was a Thursday (= 4). -/
def isoWeekdayOfDay (z : Int) : Int :=
  Int.emod (z + 3) 7 + 1

/-- Number of ISO-8601 weeks (52 or 53) in ISO year `y`. -/
def isoWeeksInYear (y : Int) : Int :=
  let p := fun yy : Int => Int.emod (yy + Int.ediv yy 4 - Int.ediv yy 100 + Int.ediv yy 400) 7
  if p y = 4 ∨ p (y - 1) = 3 then 53 else 52

/-- ISO-8601 week number of a day count since the epoch. -/
def isoWeekOfDay (z : Int) : Int :=
  let y := (civilFromDays z).1
  let doy := z - daysFromCivil y 1 1 + 1
  let w := Int.ediv (doy - isoWeekdayOfDay z + 10) 7
  if w < 1 then isoWeeksInYear (y - 1)
  else if w > isoWeeksInYear y then 1
  else w

/-- A naive Python `datetime` value (no timezone attached), at millisecond
resolution (the `ts` values are epoch milliseconds, so the microsecond
field of the real `datetime` is always `millisecond * 1000`). -/
structure PyDatetime where
  year : Int
  month : Int
  day : Int
  hour : Int
  minute : Int
  second : Int
  millisecond : Int
deriving DecidableEq, Repr

/-- Civil decomposition of an epoch-millisecond count into a naive
datetime; this is the UTC calendar decomposition of the instant. -/
def pyDatetimeOfMs (ms : Int) : PyDatetime :=
  let z := Int.ediv ms 86400000
  let r := Int.emod ms 86400000
  let c := civilFromDays z
  { year := c.1
    month := c.2.1
    day := c.2.2
    hour := Int.ediv r 3600000
    minute := Int.ediv (Int.emod r 3600000) 60000
    second := Int.ediv (Int.emod r 60000) 1000
    millisecond := Int.emod r 1000 }

/-- The UTC instant (epoch milliseconds) a naive datetime denotes when it
is interpreted as UTC. -/
def PyDatetime.toEpochMs (d : PyDatetime) : Int :=
  daysFromCivil d.year d.month d.day * 86400000 +
    d.hour * 3600000 + d.minute * 60000 + d.second * 1000 + d.millisecond

/-- Python's `datetime.fromtimestamp(sec)` converts an epoch instant to the
*local* civil time: the civil decomposition of the instant shifted by the
machine's UTC offset `tzOffsetSec` (in seconds).  etl.py calls it as
`datetime.fromtimestamp(row.ts / 1000)`, i.e. on `tsMs` milliseconds. -/
def fromtimestampMs (tzOffsetSec : Int) (tsMs : Int) : PyDatetime :=
  pyDatetimeOfMs (tsMs + tzOffsetSec * 1000)

/-! ## Data model

Rows of the five tables, the input records, and the Persistence-Gateway
operations the extractors emit.  Floating-point fields of the source
(duration, length, latitude, longitude) are modelled as exact rationals:
the lookup of etl.py compares them with SQL equality, which the spec
requires to be exact-match. -/

/-- One record of a song-metadata document (the nine fields etl.py reads). -/
structure SongDoc where
  song_id : String
  title : String
  artist_id : String
  year : Int
  duration : Rat
  artist_name : String
  artist_location : Option String
  artist_latitude : Option Rat
  artist_longitude : Option Rat
deriving DecidableEq, Repr

/-- One line of an event-log document (the fields etl.py reads). -/
structure LogEvent where
  page : String
  ts : Nat
  userId : Int
  firstName : String
  lastName : String
  gender : String
  level : String
  song : String
  artist : String
  length : Rat
  sessionId : Int
  location : String
  userAgent : String
deriving DecidableEq, Repr

/-- A row of the `songs` table. -/
structure SongRow where
  song_id : String
  title : String
  artist_id : String
  year : Int
  duration : Rat
deriving DecidableEq, Repr

/-- A row of the `artists` table. -/
structure ArtistRow where
  artist_id : String
  name : String
  location : Option String
  latitude : Option Rat
  longitude : Option Rat
deriving DecidableEq, Repr

/-- A row of the `users` table. -/
structure UserRow where
  userId : Int
  firstName : String
  lastName : String
  gender : String
  level : String
deriving DecidableEq, Repr

/-- A row of the `time` table: the pandas Timestamp itself (`start_time`,
epoch milliseconds, naive UTC from `pd.to_datetime(ts, unit="ms")`)
followed by its decomposition as etl.py builds it. -/
structure TimeRow where
  start_time : Nat
  hour : Int
  day : Int
  week : Int
  month : Int
  year : Int
  weekday : Int
deriving DecidableEq, Repr

/-- A row of the `songplays` table (without the autoincrement id, which
the database assigns).  `start_time` is the naive datetime etl.py computes
with `datetime.fromtimestamp(row.ts / 1000)`. -/
structure SongplayRow where
  start_time : PyDatetime
  userId : Int
  level : String
  song_id : Option String
  artist_id : Option String
  sessionId : Int
  location : String
  userAgent : String
deriving DecidableEq, Repr

/-- One row of the result set of the `song_select` query: the join of
`songs` and `artists` exposing (title, artist name, duration) and the two
identifiers.  A list of these models the persisted Song/Artist data the
lookup runs against, in the order the database returns rows. -/
structure SongArtistRow where
  title : String
  artistName : String
  duration : Rat
  songId : String
  artistId : String
deriving DecidableEq, Repr

/-- A parameterized statement sent to the Persistence Gateway
(`cur.execute` of one of the five insert/upsert statements). -/
inductive Op where
  | songInsert : SongRow → Op
  | artistUpsert : ArtistRow → Op
  | timeInsert : TimeRow → Op
  | userUpsert : UserRow → Op
  | songplayInsert : SongplayRow → Op
deriving DecidableEq, Repr

def Op.isTimeInsert : Op → Bool
  | .timeInsert _ => true
  | _ => false

def Op.isUserUpsert : Op → Bool
  | .userUpsert _ => true
  | _ => false

def Op.isSongplayInsert : Op → Bool
  | .songplayInsert _ => true
  | _ => false

/-! ## The extractors (process_song_file, process_log_file) -/

/-- `process_song_file cur filepath`: reads the document's records,
takes `values[0]` (the first record; an empty document raises, modelled
as `none`), and emits one song insert and one artist upsert. -/
def process_song_file (records : List SongDoc) : Option (List Op) :=
  match records with
  | [] => none
  | r :: _ =>
    some [Op.songInsert { song_id := r.song_id, title := r.title,
                          artist_id := r.artist_id, year := r.year,
                          duration := r.duration },
          Op.artistUpsert { artist_id := r.artist_id, name := r.artist_name,
                            location := r.artist_location,
                            latitude := r.artist_latitude,
                            longitude := r.artist_longitude }]

/-- Predicate of the `df["page"] == "NextSong"` filter. -/
def isNextSong (e : LogEvent) : Bool :=
  e.page == "NextSong"

/-- The time-table row etl.py builds for an event timestamp: the pandas
Timestamp `t` itself plus `t.dt.hour/day/month/year` and
`t.dt.isocalendar().week/.day`, all on the naive-UTC timestamp from
`pd.to_datetime(ts, unit="ms")`. -/
def timeRowOf (ts : Nat) : TimeRow :=
  let z := Int.ediv (ts : Int) 86400000
  let r := Int.emod (ts : Int) 86400000
  let c := civilFromDays z
  { start_time := ts
    hour := Int.ediv r 3600000
    day := c.2.2
    week := isoWeekOfDay z
    month := c.2.1
    year := c.1
    weekday := isoWeekdayOfDay z }

/-- The users-table row etl.py builds for an event. -/
def userRowOf (e : LogEvent) : UserRow :=
  { userId := e.userId, firstName := e.firstName, lastName := e.lastName,
    gender := e.gender, level := e.level }

/-- The `song_select` lookup followed by `cur.fetchone()`: the first row
of the result set whose (title, artist name, duration) equal the event's
(song, artist, length), or `none` when the result set is empty. -/
def songSelect (db : List SongArtistRow) (song artist : String) (len : Rat) :
    Option (String × String) :=
  match db.find? (fun r => r.title == song && r.artistName == artist && r.duration == len) with
  | some r => some (r.songId, r.artistId)
  | none => none

/-- The songplays-table row etl.py builds for an event:
`datetime.fromtimestamp(row.ts / 1000)` (local time at UTC offset
`tzOffsetSec`), the user fields, and the identifiers resolved by
`song_select` (both `None` on a lookup miss). -/
def songplayRowOf (tzOffsetSec : Int) (db : List SongArtistRow) (e : LogEvent) : SongplayRow :=
  let res := songSelect db e.song e.artist e.length
  { start_time := fromtimestampMs tzOffsetSec (e.ts : Int)
    userId := e.userId
    level := e.level
    song_id := res.map Prod.fst
    artist_id := res.map Prod.snd
    sessionId := e.sessionId
    location := e.location
    userAgent := e.userAgent }

/-- `process_log_file cur filepath`: filters the document's lines to the
"NextSong" events, then runs three loops in order — time-table inserts,
users-table upserts, songplay inserts (the last resolving song/artist via
`song_select` against the persisted rows `db`). -/
def process_log_file (tzOffsetSec : Int) (db : List SongArtistRow)
    (events : List LogEvent) : List Op :=
  let df := events.filter isNextSong
  (df.map fun e => Op.timeInsert (timeRowOf e.ts)) ++
    (df.map fun e => Op.userUpsert (userRowOf e)) ++
    (df.map fun e => Op.songplayInsert (songplayRowOf tzOffsetSec db e))

/-! ## The file discoverer of process_data

etl.py enumerates files with `os.walk(folder_path)` and, in every visited
directory `root`, takes `glob.glob(os.path.join(root, "*.json"))`.  A
filesystem snapshot is a finite tree of named entries; paths are lists of
names relative to the walk root.  `glob` with the pattern `*.json` matches
any directory entry — file or directory — whose name ends in ".json" and
is not hidden (a `*` never matches a leading dot). -/

mutual

/-- A node of the filesystem: a plain file or a directory with a list of
named children, in directory-listing order. -/
inductive FsTree where
  | file : FsTree
  | dir : EntryList → FsTree

/-- The named children of a directory. -/
inductive EntryList where
  | nil : EntryList
  | cons : String → FsTree → EntryList → EntryList

end

/-- Does a directory-entry name match the glob pattern `*.json`?  The `*`
matches any (possibly empty) run of characters except a leading dot, so
the name must end in ".json" and not start with ".".  (Stated over the
name's character list so that concrete instances evaluate.) -/
def matchesJsonGlob (name : String) : Bool :=
  (match name.data with
   | [] => false
   | c :: _ => !(c == '.')) &&
    List.isSuffixOf ".json".data name.data

mutual

/-- The paths `os.walk` + `glob.glob(root + "/*.json")` accumulates from a
node: nothing for a file; for a directory, the glob matches among its
entries (files and directories alike, in listing order) followed by the
walks of its subdirectories, in order. -/
def discoverTree (p : List String) : FsTree → List (List String)
  | .file => []
  | .dir es => globMatches p es ++ discoverSub p es

/-- The entries of one directory whose names match `*.json`. -/
def globMatches (p : List String) : EntryList → List (List String)
  | .nil => []
  | .cons n _ rest =>
    (if matchesJsonGlob n then [p ++ [n]] else []) ++ globMatches p rest

/-- The walks of the subdirectories of one directory, in listing order. -/
def discoverSub (p : List String) : EntryList → List (List String)
  | .nil => []
  | .cons n t rest => discoverTree (p ++ [n]) t ++ discoverSub p rest

end

/-- The file discoverer of `process_data` applied to a dataset root. -/
def discover_files (t : FsTree) : List (List String) :=
  discoverTree [] t

mutual

/-- Specification-side recursive listing: the paths of the *plain files*
in the subtree whose name matches the extension filter.  (Written from the
spec's words for claim C4; compare with `discover_files`.) -/
def specJsonFiles (p : List String) : FsTree → List (List String)
  | .file => []
  | .dir es => specJsonFilesList p es

def specJsonFilesList (p : List String) : EntryList → List (List String)
  | .nil => []
  | .cons n .file rest =>
    (if matchesJsonGlob n then [p ++ [n]] else []) ++ specJsonFilesList p rest
  | .cons n (.dir es) rest =>
    specJsonFiles (p ++ [n]) (.dir es) ++ specJsonFilesList p rest

end

mutual

/-- All entries — files and directories — of the subtree whose name
matches the `*.json` glob, by a direct recursive listing. -/
def jsonEntries (p : List String) : FsTree → List (List String)
  | .file => []
  | .dir es => jsonEntriesList p es

def jsonEntriesList (p : List String) : EntryList → List (List String)
  | .nil => []
  | .cons n t rest =>
    (if matchesJsonGlob n then [p ++ [n]] else []) ++
      jsonEntries (p ++ [n]) t ++ jsonEntriesList p rest

end

/-- The names of a directory's entries, in listing order. -/
def EntryList.names : EntryList → List String
  | .nil => []
  | .cons n _ rest => n :: rest.names

mutual

/-- Well-formedness of a filesystem snapshot: within any one directory,
entry names are distinct (as they are on a real filesystem). -/
def FsTree.wf : FsTree → Bool
  | .file => true
  | .dir es => es.wf

def EntryList.wf : EntryList → Bool
  | .nil => true
  | .cons n t rest => !(rest.names.contains n) && t.wf && rest.wf

end

/-! ## The loader (process_data) -/

/-- One observable event of a loader run: the extractor is invoked on a
file and its writes are sent to the Gateway, or the connection commits. -/
inductive TraceEv (α : Type) where
  | extract : α → List Op → TraceEv α
  | commit : TraceEv α
deriving DecidableEq, Repr

/-- The per-file loop of `process_data`: for each discovered file in
order, `func(cur, datafile)` then `conn.commit()`.  The extractor may
fail (raise); nothing catches the exception, so the loop stops there and
the error propagates.  Returns the trace of extractor calls and commits,
and the propagated error, if any. -/
def runLoader {α ε : Type} (files : List α) (func : α → Except ε (List Op)) :
    List (TraceEv α) × Option ε :=
  match files with
  | [] => ([], none)
  | f :: rest =>
    match func f with
    | .error e => ([], some e)
    | .ok ops =>
      let r := runLoader rest func
      (TraceEv.extract f ops :: TraceEv.commit :: r.1, r.2)

/-- `process_data cur conn folder_path func`: discover the files under the
root, then run the per-file extract-and-commit loop over them in discovery
order. -/
def process_data {ε : Type} (root : FsTree)
    (func : List String → Except ε (List Op)) :
    List (TraceEv (List String)) × Option ε :=
  runLoader (discover_files root) func

/-! ## Concrete sample data (used by witness and counterexample theorems) -/

/-- The rational 180.5 (= 361/2), the length/duration value of the spec's
end-to-end scenario, given in lowest terms so that concrete instances
evaluate by kernel reduction. -/
def rat180_5 : Rat := ⟨361, 2, by decide, by norm_num⟩

/-- The play event of the spec's end-to-end scenario: a "NextSong" line
with song "Song A", artist "Artist X", length 180.5, ts 1000000000000. -/
def evA : LogEvent :=
  { page := "NextSong", ts := 1000000000000, userId := 7, firstName := "Ann",
    lastName := "Lee", gender := "F", level := "paid", song := "Song A",
    artist := "Artist X", length := rat180_5, sessionId := 42,
    location := "NYC", userAgent := "agent1" }

/-- A non-qualifying line in the same log file. -/
def evHome : LogEvent :=
  { evA with page := "Home", ts := 1000000001000 }

/-- The persisted Song/Artist join row matching `evA`. -/
def rowSA : SongArtistRow :=
  { title := "Song A", artistName := "Artist X", duration := rat180_5,
    songId := "S1", artistId := "AR1" }

/-- A second persisted row with the same (title, artist, duration) key. -/
def rowSA2 : SongArtistRow :=
  { title := "Song A", artistName := "Artist X", duration := rat180_5,
    songId := "S2", artistId := "AR2" }

/-- A sample filesystem: a root directory holding a file "a.json", a
subdirectory named "b.json" (which the glob also matches), a subdirectory
"sub" with a file "c.json", and a file "d.txt". -/
def sampleTree : FsTree :=
  .dir (.cons "a.json" .file
    (.cons "b.json" (.dir .nil)
      (.cons "sub" (.dir (.cons "c.json" .file .nil))
        (.cons "d.txt" .file .nil))))

/-! ## Helper lemmas -/

/-- `fetchone` on a query result is the head of the filtered rows. -/
theorem find?_eq_head?_filter {α : Type} (p : α → Bool) (l : List α) :
    l.find? p = (l.filter p).head? := by
  induction l with
  | nil => rfl
  | cons a l ih =>
    cases h : p a
    · rw [List.find?_cons, List.filter_cons, h]
      show List.find? p l = (List.filter p l).head?
      exact ih
    · rw [List.find?_cons, List.filter_cons, h]
      rfl

/-- The loader trace when every extractor call succeeds: one extract
followed by one commit per file, in file order. -/
theorem runLoader_all_ok {α ε : Type} (files : List α) (g : α → List Op) :
    runLoader files (fun f => (Except.ok (g f) : Except ε (List Op))) =
      (files.flatMap fun f => [TraceEv.extract f (g f), TraceEv.commit], none) := by
  induction files with
  | nil => rfl
  | cons f rest ih => simp [runLoader, ih]

/-! ## Claim theorems -/

/-- C5: for every well-formed song-metadata document (exactly one
record), the Song Record Extractor issues exactly one Song insert whose
five fields equal the document's fields untransformed, and exactly one
Artist upsert whose five fields equal the document's fields. -/
theorem C5_song_extractor_fields (d : SongDoc) :
    process_song_file [d] =
      some [Op.songInsert { song_id := d.song_id, title := d.title,
                            artist_id := d.artist_id, year := d.year,
                            duration := d.duration },
            Op.artistUpsert { artist_id := d.artist_id, name := d.artist_name,
                              location := d.artist_location,
                              latitude := d.artist_latitude,
                              longitude := d.artist_longitude }] := rfl

/-- C9: when a song-metadata document parses to more than one record,
only row index 0 is read: the output is the same as for the document
holding the first record alone, and the remaining records are ignored. -/
theorem C9_first_record_only (d : SongDoc) (rest : List SongDoc) :
    process_song_file (d :: rest) = process_song_file [d] ∧
    process_song_file (d :: rest) =
      some [Op.songInsert { song_id := d.song_id, title := d.title,
                            artist_id := d.artist_id, year := d.year,
                            duration := d.duration },
            Op.artistUpsert { artist_id := d.artist_id, name := d.artist_name,
                              location := d.artist_location,
                              latitude := d.artist_latitude,
                              longitude := d.artist_longitude }] :=
  ⟨rfl, rfl⟩

/-- C2: a log document with N lines of which M are "NextSong" events
yields exactly M time-table inserts, M user upserts, and M songplay
inserts, and 3·M writes in total — the other N − M lines produce none. -/
theorem C2_write_counts (tz : Int) (db : List SongArtistRow)
    (events : List LogEvent) :
    (process_log_file tz db events).countP Op.isTimeInsert
        = (events.filter isNextSong).length ∧
    (process_log_file tz db events).countP Op.isUserUpsert
        = (events.filter isNextSong).length ∧
    (process_log_file tz db events).countP Op.isSongplayInsert
        = (events.filter isNextSong).length ∧
    (process_log_file tz db events).length
        = 3 * (events.filter isNextSong).length := by
  refine ⟨?_, ?_, ?_, ?_⟩ <;>
    (simp [process_log_file, List.countP_append, List.countP_map,
       Function.comp_def, List.countP_true, List.countP_false,
       Op.isTimeInsert, Op.isUserUpsert, Op.isSongplayInsert];
     try omega)

/-- C6: within one log file, every time-table insert and every user
upsert is sent to the Gateway before any songplay insert: the emitted
operation list splits into a prefix of time/user operations and a suffix
of songplay operations. -/
theorem C6_dimensions_before_facts (tz : Int) (db : List SongArtistRow)
    (events : List LogEvent) :
    ∃ pre post,
      process_log_file tz db events = pre ++ post ∧
      (∀ op ∈ pre, op.isTimeInsert = true ∨ op.isUserUpsert = true) ∧
      (∀ op ∈ post, op.isSongplayInsert = true) := by
  refine ⟨((events.filter isNextSong).map fun e => Op.timeInsert (timeRowOf e.ts)) ++
            ((events.filter isNextSong).map fun e => Op.userUpsert (userRowOf e)),
          (events.filter isNextSong).map fun e =>
            Op.songplayInsert (songplayRowOf tz db e),
          by simp [process_log_file], ?_, ?_⟩
  · intro op hop
    rcases List.mem_append.mp hop with h | h
    · rcases List.mem_map.mp h with ⟨e, _, rfl⟩
      exact Or.inl rfl
    · rcases List.mem_map.mp h with ⟨e, _, rfl⟩
      exact Or.inr rfl
  · intro op hop
    rcases List.mem_map.mp hop with ⟨e, _, rfl⟩
    rfl

/-- C7: the Loader processes discovered files in discovery order and
commits each file's writes as a single unit before invoking the extractor
on the next file; no two files' writes share a commit — on a run with no
failures the trace is exactly extract-then-commit per discovered file. -/
theorem C7_commit_per_file {ε : Type} (root : FsTree)
    (g : List String → List Op) :
    process_data root (fun f => (Except.ok (g f) : Except ε (List Op))) =
      ((discover_files root).flatMap fun f =>
          [TraceEv.extract f (g f), TraceEv.commit], none) :=
  runLoader_all_ok (discover_files root) g

/-- C8: no error is caught or retried: if the extractor fails on a file,
the per-file loop of `process_data` stops there, the error propagates,
the earlier files' extract-and-commit pairs are the whole trace (their
committed writes stay in place), and no later file is processed. -/
theorem C8_error_propagation {α ε : Type} (pre post : List α) (bad : α)
    (func : α → Except ε (List Op)) (g : α → List Op) (err : ε)
    (hpre : ∀ f ∈ pre, func f = Except.ok (g f))
    (hbad : func bad = Except.error err) :
    runLoader (pre ++ bad :: post) func =
      (pre.flatMap (fun f => [TraceEv.extract f (g f), TraceEv.commit]), some err) := by
  induction pre with
  | nil => simp [runLoader, hbad]
  | cons f rest ih =>
    have hf : func f = Except.ok (g f) := hpre f (List.mem_cons_self f rest)
    have ih2 := ih (fun x hx => hpre x (List.mem_cons_of_mem f hx))
    simp [runLoader, hf, ih2]

/-- The boolean match predicate of the `song_select` query. -/
def matchesLookup (e : LogEvent) (r : SongArtistRow) : Bool :=
  r.title == e.song && r.artistName == e.artist && r.duration == e.length

/-- The lookup predicate holds exactly at the rows whose key fields equal
the event's fields. -/
theorem matchesLookup_iff (e : LogEvent) (r : SongArtistRow) :
    matchesLookup e r = true ↔
      r.title = e.song ∧ r.artistName = e.artist ∧ r.duration = e.length := by
  simp [matchesLookup, and_assoc]

/-- `songSelect` unfolded through the lookup predicate. -/
theorem songSelect_eq_find? (db : List SongArtistRow) (e : LogEvent) :
    songSelect db e.song e.artist e.length =
      (db.find? (matchesLookup e)).map (fun r => (r.songId, r.artistId)) := by
  unfold songSelect matchesLookup
  cases db.find? fun r => r.title == e.song && r.artistName == e.artist && r.duration == e.length <;>
    rfl

/-- C3: for every play event, if a persisted Song/Artist pair matches the
event's (song, artist, length) exactly, the songplay row emitted for the
event (which is among the writes of `process_log_file`) carries a matching
pair's identifiers; when no pair matches, both identifier fields are null. -/
theorem C3_songplay_resolution (tz : Int) (db : List SongArtistRow)
    (events : List LogEvent) (e : LogEvent)
    (he : e ∈ events) (hp : e.page = "NextSong") :
    Op.songplayInsert (songplayRowOf tz db e) ∈ process_log_file tz db events ∧
    ((∃ r ∈ db, r.title = e.song ∧ r.artistName = e.artist ∧ r.duration = e.length) →
      ∃ r ∈ db, r.title = e.song ∧ r.artistName = e.artist ∧ r.duration = e.length ∧
        (songplayRowOf tz db e).song_id = some r.songId ∧
        (songplayRowOf tz db e).artist_id = some r.artistId) ∧
    ((∀ r ∈ db, ¬(r.title = e.song ∧ r.artistName = e.artist ∧ r.duration = e.length)) →
      (songplayRowOf tz db e).song_id = none ∧
      (songplayRowOf tz db e).artist_id = none) := by
  refine ⟨?_, ?_, ?_⟩
  · have hf : e ∈ events.filter isNextSong :=
      List.mem_filter.mpr ⟨he, by simp [isNextSong, hp]⟩
    show Op.songplayInsert (songplayRowOf tz db e) ∈
      ((events.filter isNextSong).map fun e => Op.timeInsert (timeRowOf e.ts)) ++
        ((events.filter isNextSong).map fun e => Op.userUpsert (userRowOf e)) ++
        ((events.filter isNextSong).map fun e =>
          Op.songplayInsert (songplayRowOf tz db e))
    exact List.mem_append_right _ (List.mem_map_of_mem _ hf)
  · rintro ⟨r, hr, h1, h2, h3⟩
    cases hfind : db.find? (matchesLookup e) with
    | none =>
      exact absurd ((matchesLookup_iff e r).mpr ⟨h1, h2, h3⟩)
        (by simpa using List.find?_eq_none.mp hfind r hr)
    | some r0 =>
      refine ⟨r0, List.mem_of_find?_eq_some hfind, ?_⟩
      obtain ⟨g1, g2, g3⟩ := (matchesLookup_iff e r0).mp (List.find?_some hfind)
      refine ⟨g1, g2, g3, ?_, ?_⟩ <;>
        simp [songplayRowOf, songSelect_eq_find?, hfind]
  · intro hnone
    have hfind : db.find? (matchesLookup e) = none :=
      List.find?_eq_none.mpr fun r hr => by
        simp only [matchesLookup_iff]
        exact fun hc => hnone r hr hc
    constructor <;> simp [songplayRowOf, songSelect_eq_find?, hfind]

/-- C3 witness: the resolution theorem instantiated at the spec's
end-to-end scenario (one matching persisted pair). -/
theorem C3_songplay_resolution_witness :
    Op.songplayInsert (songplayRowOf 0 [rowSA] evA) ∈ process_log_file 0 [rowSA] [evA] ∧
    ((∃ r ∈ [rowSA], r.title = evA.song ∧ r.artistName = evA.artist ∧ r.duration = evA.length) →
      ∃ r ∈ [rowSA], r.title = evA.song ∧ r.artistName = evA.artist ∧ r.duration = evA.length ∧
        (songplayRowOf 0 [rowSA] evA).song_id = some r.songId ∧
        (songplayRowOf 0 [rowSA] evA).artist_id = some r.artistId) ∧
    ((∀ r ∈ [rowSA], ¬(r.title = evA.song ∧ r.artistName = evA.artist ∧ r.duration = evA.length)) →
      (songplayRowOf 0 [rowSA] evA).song_id = none ∧
      (songplayRowOf 0 [rowSA] evA).artist_id = none) :=
  C3_songplay_resolution 0 [rowSA] [evA] evA (List.mem_singleton.mpr rfl) rfl

/-- C10: when the lookup's result set holds more than one matching row,
the emitted songplay carries the identifiers of the first row (a single
`fetchone`), not an error and not all matches; and exactly one songplay
insert is emitted per qualifying event regardless of the number of
matches. -/
theorem C10_first_match_single_fetch (tz : Int) (db : List SongArtistRow)
    (e : LogEvent) (r1 r2 : SongArtistRow) (rest : List SongArtistRow)
    (hm : db.filter (matchesLookup e) = r1 :: r2 :: rest) :
    (songplayRowOf tz db e).song_id = some r1.songId ∧
    (songplayRowOf tz db e).artist_id = some r1.artistId ∧
    ∀ events : List LogEvent,
      (process_log_file tz db events).countP Op.isSongplayInsert
        = (events.filter isNextSong).length := by
  have hfind : db.find? (matchesLookup e) = some r1 := by
    rw [find?_eq_head?_filter, hm]; rfl
  refine ⟨?_, ?_, ?_⟩
  · simp [songplayRowOf, songSelect_eq_find?, hfind]
  · simp [songplayRowOf, songSelect_eq_find?, hfind]
  · intro events
    simp [process_log_file, List.countP_append, List.countP_map,
      Function.comp_def, List.countP_true, List.countP_false,
      Op.isSongplayInsert]

mutual

/-- The walk-then-glob traversal of the discoverer emits a permutation of
the direct recursive listing of glob-matching entries. -/
theorem discoverTree_perm_jsonEntries : ∀ (p : List String) (t : FsTree),
    List.Perm (discoverTree p t) (jsonEntries p t)
  | p, .file => by simp [discoverTree, jsonEntries]
  | p, .dir es => by
    have h := discoverList_perm_jsonEntriesList p es
    simpa [discoverTree, jsonEntries] using h

theorem discoverList_perm_jsonEntriesList : ∀ (p : List String) (es : EntryList),
    List.Perm (globMatches p es ++ discoverSub p es) (jsonEntriesList p es)
  | p, .nil => by simp [globMatches, discoverSub, jsonEntriesList]
  | p, .cons n t rest => by
    have h1 := discoverTree_perm_jsonEntries (p ++ [n]) t
    have h2 := discoverList_perm_jsonEntriesList p rest
    have key : List.Perm
        (globMatches p rest ++ (discoverTree (p ++ [n]) t ++ discoverSub p rest))
        (jsonEntries (p ++ [n]) t ++ jsonEntriesList p rest) :=
      (List.perm_append_comm_assoc _ _ _).trans (h1.append h2)
    have goal2 := key.append_left (if matchesJsonGlob n then [p ++ [n]] else [])
    simpa [globMatches, discoverSub, jsonEntriesList, List.append_assoc] using goal2

end

mutual

/-- Every path listed under a node extends the node's path by at least one
name. -/
theorem jsonEntries_shape : ∀ (p q : List String) (t : FsTree),
    q ∈ jsonEntries p t → ∃ n s, q = p ++ n :: s
  | p, q, .file => by simp [jsonEntries]
  | p, q, .dir es => fun h => by
    obtain ⟨n, s, hq, _⟩ := jsonEntriesList_shape p q es (by simpa [jsonEntries] using h)
    exact ⟨n, s, hq⟩

/-- Every path listed among a directory's entries extends the directory's
path by one of the entry names. -/
theorem jsonEntriesList_shape : ∀ (p q : List String) (es : EntryList),
    q ∈ jsonEntriesList p es → ∃ n s, q = p ++ n :: s ∧ n ∈ es.names
  | p, q, .nil => by simp [jsonEntriesList]
  | p, q, .cons n t rest => fun h => by
    rw [jsonEntriesList] at h
    rcases List.mem_append.mp h with h' | hR
    · rcases List.mem_append.mp h' with hI | hJ
      · refine ⟨n, [], ?_, List.mem_cons_self n rest.names⟩
        rcases Bool.eq_false_or_eq_true (matchesJsonGlob n) with hg | hg <;>
          simp [hg] at hI
        exact hI
      · obtain ⟨m, s, hq⟩ := jsonEntries_shape (p ++ [n]) q t hJ
        refine ⟨n, m :: s, ?_, List.mem_cons_self n rest.names⟩
        simpa [List.append_assoc] using hq
    · obtain ⟨m, s, hq, hm⟩ := jsonEntriesList_shape p q rest hR
      exact ⟨m, s, hq, List.mem_cons_of_mem n hm⟩

end

mutual

/-- On a well-formed filesystem the recursive matching listing has no
duplicate paths. -/
theorem jsonEntries_nodup : ∀ (p : List String) (t : FsTree),
    t.wf = true → (jsonEntries p t).Nodup
  | p, .file, _ => by simp [jsonEntries]
  | p, .dir es, h => by
    rw [jsonEntries]
    exact jsonEntriesList_nodup p es (by simpa [FsTree.wf] using h)

theorem jsonEntriesList_nodup : ∀ (p : List String) (es : EntryList),
    EntryList.wf es = true → (jsonEntriesList p es).Nodup
  | p, .nil, _ => by simp [jsonEntriesList]
  | p, .cons n t rest, h => by
    rw [EntryList.wf, Bool.and_eq_true, Bool.and_eq_true] at h
    obtain ⟨⟨hn, htwf⟩, hrwf⟩ := h
    have hnmem : n ∉ rest.names := by simpa using hn
    have hJ : (jsonEntries (p ++ [n]) t).Nodup := jsonEntries_nodup (p ++ [n]) t htwf
    have hR : (jsonEntriesList p rest).Nodup := jsonEntriesList_nodup p rest hrwf
    rw [jsonEntriesList]
    refine List.nodup_append.mpr ⟨List.nodup_append.mpr ⟨?_, hJ, ?_⟩, hR, ?_⟩
    · rcases Bool.eq_false_or_eq_true (matchesJsonGlob n) with hg | hg <;> simp [hg]
    · intro q hqI hqJ
      obtain ⟨m, s, hq⟩ := jsonEntries_shape (p ++ [n]) q t hqJ
      rcases Bool.eq_false_or_eq_true (matchesJsonGlob n) with hg | hg <;> simp [hg] at hqI
      rw [hqI] at hq
      have := congrArg List.length hq
      simp [List.length_append] at this
    · intro q hqIJ hqR
      obtain ⟨m, s, hq, hm⟩ := jsonEntriesList_shape p q rest hqR
      rcases List.mem_append.mp hqIJ with hI | hJ
      · rcases Bool.eq_false_or_eq_true (matchesJsonGlob n) with hg | hg <;> simp [hg] at hI
        rw [hI] at hq
        have : ([n] : List String) = m :: s := List.append_cancel_left hq
        have hnm : n = m := by injection this
        exact hnmem (hnm ▸ hm)
      · obtain ⟨m', s', hq'⟩ := jsonEntries_shape (p ++ [n]) q t hJ
        rw [hq] at hq'
        have hq2 : p ++ m :: s = p ++ n :: m' :: s' := by
          simpa [List.append_assoc] using hq'
        have h2 : (m :: s : List String) = n :: m' :: s' :=
          List.append_cancel_left hq2
        have h3 : m = n := by injection h2
        exact hnmem (h3 ▸ hm)

end

/-- C4 counterexample: the claim says the discoverer returns exactly the
*files* matching the extension filter, but `glob.glob(root + "/*.json")`
also matches a *directory* whose name ends in ".json": in `sampleTree`
the entry "b.json" is a directory, is absent from the recursive listing
of matching files, yet is returned by the discoverer. -/
theorem C4_only_files_counterexample :
    ["b.json"] ∈ discover_files sampleTree ∧
    ["b.json"] ∉ specJsonFiles [] sampleTree := by
  decide

/-- C4 amended: for every well-formed directory tree, the File Discoverer
returns exactly the *entries — files or directories —* of the recursive
listing whose name matches the `*.json` glob (name ends in ".json" and is
not hidden), order-independent and with no duplicate paths. -/
theorem C4_discoverer_amended (t : FsTree) (hwf : t.wf = true) :
    List.Perm (discover_files t) (jsonEntries [] t) ∧
    (discover_files t).Nodup := by
  have hperm := discoverTree_perm_jsonEntries [] t
  exact ⟨hperm, hperm.nodup_iff.mpr (jsonEntries_nodup [] t hwf)⟩

/-- C4 witness: the amended theorem applied to the concrete sample tree. -/
theorem C4_discoverer_amended_witness :
    FsTree.wf sampleTree = true ∧
    (List.Perm (discover_files sampleTree) (jsonEntries [] sampleTree) ∧
      (discover_files sampleTree).Nodup) :=
  ⟨by decide, C4_discoverer_amended sampleTree (by decide)⟩

/-- C1: evaluation of the code at the failing input.  For the qualifying
event `evA` (ts = 1000000000000) the time-table row carries the UTC
instant and its UTC calendar decomposition (2001-09-09, hour 1, ISO week
36, ISO weekday 7 = Sunday), and at UTC offset 0 the songplay start_time
agrees with it; but `datetime.fromtimestamp` applies the machine's local
UTC offset, so on a machine at UTC+1 (offset 3600 s) the songplay
start_time is 2001-09-09 02:46:40 — not the UTC decomposition of ts and
not the same instant as the time-table start_time of the same event. -/
theorem C1_songplay_start_time_is_local_not_utc :
    timeRowOf 1000000000000 =
      { start_time := 1000000000000, hour := 1, day := 9, week := 36,
        month := 9, year := 2001, weekday := 7 } ∧
    pyDatetimeOfMs 1000000000000 =
      { year := 2001, month := 9, day := 9, hour := 1, minute := 46,
        second := 40, millisecond := 0 } ∧
    (songplayRowOf 0 [] evA).start_time = pyDatetimeOfMs 1000000000000 ∧
    (songplayRowOf 3600 [] evA).start_time =
      { year := 2001, month := 9, day := 9, hour := 2, minute := 46,
        second := 40, millisecond := 0 } ∧
    (songplayRowOf 3600 [] evA).start_time ≠ pyDatetimeOfMs 1000000000000 ∧
    (songplayRowOf 3600 [] evA).start_time.toEpochMs ≠ (1000000000000 : Int) := by
  decide

/-- C8 witness: the propagation theorem applied to a concrete three-file
run whose extractor fails on the middle file. -/
theorem C8_error_propagation_witness :
    runLoader (["a"] ++ "b" :: ["c"])
        (fun f => if f = "b" then Except.error 5 else Except.ok ([] : List Op)) =
      (["a"].flatMap fun f => [TraceEv.extract f ([] : List Op), TraceEv.commit],
        some 5) :=
  C8_error_propagation ["a"] ["c"] "b"
    (fun f => if f = "b" then Except.error 5 else Except.ok ([] : List Op))
    (fun _ => []) 5
    (fun f hf => by rcases List.mem_singleton.mp hf with rfl; rfl)
    (by rfl)

/-- C10 witness: the first-match theorem applied to a persisted state with
two rows matching `evA`, and its per-event count conclusion instantiated
at a concrete two-line log. -/
theorem C10_first_match_single_fetch_witness :
    (songplayRowOf 0 [rowSA, rowSA2] evA).song_id = some rowSA.songId ∧
    (songplayRowOf 0 [rowSA, rowSA2] evA).artist_id = some rowSA.artistId ∧
    (process_log_file 0 [rowSA, rowSA2] [evA, evHome]).countP Op.isSongplayInsert
      = ([evA, evHome].filter isNextSong).length := by
  have h := C10_first_match_single_fetch 0 [rowSA, rowSA2] evA rowSA rowSA2 []
    (by decide)
  exact ⟨h.1, h.2.1, h.2.2 [evA, evHome]⟩
